import Mathlib

/-!
# Verification of the cloudflare-rss-aggregator scripts

A shallow embedding of the two offline scripts
`scripts/generate-import.py` and `scripts/update-ranks.py`.

Python strings are modelled as `List Char` (a Python `str` is a sequence of
code points).  Python's `str.lower` is modelled as pointwise ASCII
lower-casing, `str.strip` as removal of leading/trailing whitespace
characters, `str.startswith` / `str.endswith` as list prefix/suffix tests,
and `int(...)` as a total parser returning `Option Int` (sign and decimal
digits, surrounded by optional whitespace).  Python `dict` with string keys
is modelled as an association list together with an insert operation that
overwrites the value of an existing key in place and appends a fresh key at
the end — exactly the insertion-order semantics of CPython dictionaries.
Exceptions (`int` raising `ValueError`) are modelled with `Except`.
-/

/-- Python string: a sequence of code points. -/
abbrev PyStr := List Char

/-- Whitespace as recognised by Python's `str.strip` (the ASCII part:
space, tab, newline, carriage return, vertical tab, form feed). -/
def py_isspace (c : Char) : Bool :=
  c = ' ' || c = '\t' || c = '\n' || c = '\r' || c = '\x0b' || c = '\x0c'

/-- ASCII lower-casing of one character, as `str.lower` acts on ASCII. -/
def py_lower_char (c : Char) : Char :=
  if 65 ≤ c.toNat ∧ c.toNat ≤ 90 then Char.ofNat (c.toNat + 32) else c

/-- `s.lower()`. -/
def py_lower (s : PyStr) : PyStr := s.map py_lower_char

/-- Removal of leading whitespace (`str.lstrip`). -/
def py_lstrip (s : PyStr) : PyStr := s.dropWhile py_isspace

/-- Removal of trailing whitespace (`str.rstrip`). -/
def py_rstrip (s : PyStr) : PyStr := (s.reverse.dropWhile py_isspace).reverse

/-- `s.strip()`: leading and trailing whitespace removed. -/
def py_strip (s : PyStr) : PyStr := py_rstrip (py_lstrip s)

/-- `normalize_domain` from both scripts:
`domain = domain.lower().strip()`, then strip a leading `"www."`. -/
def normalize_domain (domain : PyStr) : PyStr :=
  let d := py_strip (py_lower domain)
  if "www.".data.isPrefixOf d then d.drop 4 else d

/-- `ranked_domain.split('/')[0]`: the part before the first `/`
(the whole string when there is no `/`). -/
def py_before_slash (s : PyStr) : PyStr := s.takeWhile (fun c => c ≠ '/')

/-- `ranked_domain.split('/', 1)[1]`: the part after the first `/`. -/
def py_after_slash (s : PyStr) : PyStr := (s.dropWhile (fun c => c ≠ '/')).drop 1

/-- `domains_match` from `scripts/generate-import.py` (lines 27–54).
The binding of `path_part` is dead code in the original and is kept here. -/
def domains_match_gi (feed_domain ranked_domain : PyStr) : Bool :=
  let f := normalize_domain feed_domain
  let r := normalize_domain ranked_domain
  if f = r then true
  else if List.isSuffixOf ('.' :: r) f then true
  else if List.isSuffixOf ('.' :: f) r then true
  else if '/' ∈ r then
    let base_domain := py_before_slash r
    let _path_part := if '/' ∈ r then py_after_slash r else []
    if f = base_domain ∨ List.isSuffixOf ('.' :: base_domain) f then true
    else false
  else false

/-- `domains_match` from `scripts/update-ranks.py` (lines 22–36). -/
def domains_match_ur (feed_domain ranked_domain : PyStr) : Bool :=
  let f := normalize_domain feed_domain
  let r := normalize_domain ranked_domain
  if f = r then true
  else if List.isSuffixOf ('.' :: r) f then true
  else if List.isSuffixOf ('.' :: f) r then true
  else if '/' ∈ r then
    let base_domain := py_before_slash r
    if f = base_domain ∨ List.isSuffixOf ('.' :: base_domain) f then true
    else false
  else false

-- sanity checks against the Python implementation
example : domains_match_gi "blog.example.com".data "example.com".data = true := by decide
example : domains_match_gi "example.com".data "blog.example.com".data = true := by decide
example : domains_match_gi "example.com".data "example.org".data = false := by decide
example : domains_match_gi "WWW.Example.com".data "example.com".data = true := by decide
example : domains_match_gi "microsoft.com".data "devblogs.microsoft.com/oldnewthing".data = false := by decide
example : domains_match_gi "devblogs.microsoft.com".data "devblogs.microsoft.com/oldnewthing".data = true := by decide
example : normalize_domain "www.www.x".data = "www.x".data := by decide
example : normalize_domain " WWW. example.com ".data = " example.com".data := by decide

/-! ## Python `int(...)` -/

/-- Accumulating decimal-digit reader: fails on the first non-digit. -/
def py_digits_go (acc : Nat) : List Char → Option Nat
  | [] => some acc
  | c :: cs => if c.isDigit then py_digits_go (10 * acc + (c.toNat - 48)) cs else none

/-- A non-empty all-digit string to its value. -/
def py_digits : List Char → Option Nat
  | [] => none
  | c :: cs => py_digits_go 0 (c :: cs)

/-- `int(s)` for a Python string: optional surrounding whitespace, an
optional sign, then decimal digits; `none` models `ValueError`. -/
def py_int (s : PyStr) : Option Int :=
  match py_strip s with
  | '+' :: ds => (py_digits ds).map Int.ofNat
  | '-' :: ds => (py_digits ds).map (fun n => -(n : Int))
  | ds => (py_digits ds).map Int.ofNat

example : py_int " 12 ".data = some 12 := by decide
example : py_int "-3".data = some (-3) := by decide
example : py_int "x1".data = none := by decide
example : py_int "".data = none := by decide

/-! ## Python `dict` as an insertion-ordered association list -/

/-- `d[k] = v` on a CPython dict: an existing key keeps its position and
gets the new value; a fresh key is appended at the end. -/
def py_dict_set {V : Type} : List (PyStr × V) → PyStr → V → List (PyStr × V)
  | [], k, v => [(k, v)]
  | (k', v') :: d, k, v =>
    if k' = k then (k', v) :: d else (k', v') :: py_dict_set d k v

/-- `d[k]` lookup (first — and, for a dict, only — binding of `k`). -/
def py_dict_find {V : Type} (d : List (PyStr × V)) (k : PyStr) : Option V :=
  (d.find? (fun p => p.1 = k)).map Prod.snd

/-! ## Ranking loaders

Both loaders receive the data rows of the tab-separated ranking table
(the rows after the header row that `next(reader)` discards).  A cell is a
`PyStr`; a row is a list of cells.  `Except Unit` models the uncaught
`ValueError` that `int(row[0])` raises on a non-numeric rank. -/

/-- One ranking entry of `generate-import.py`: `{'rank': …, 'author': …}`. -/
abbrev GIInfo := Int × PyStr

/-- The row loop of `load_rankings` in `generate-import.py` (lines 63–71):
rows with fewer than 6 columns are skipped, otherwise
`rankings[row[1].lower().strip()] = {'rank': int(row[0]), 'author': row[5].strip()}`. -/
def load_gi_go : List (List PyStr) → List (PyStr × GIInfo) → Except Unit (List (PyStr × GIInfo))
  | [], acc => .ok acc
  | row :: rest, acc =>
    if 6 ≤ row.length then
      match py_int (row.getD 0 []) with
      | none => .error ()
      | some rank =>
        let domain := py_strip (py_lower (row.getD 1 []))
        let author := py_strip (row.getD 5 [])
        load_gi_go rest (py_dict_set acc domain (rank, author))
    else load_gi_go rest acc

/-- `load_rankings` from `scripts/generate-import.py` (lines 56–72). -/
def load_rankings_gi (rows : List (List PyStr)) : Except Unit (List (PyStr × GIInfo)) :=
  load_gi_go rows []

/-- The row loop of the module-body ranking loader in `update-ranks.py`
(lines 43–47): rows with fewer than 2 columns are skipped, otherwise
`rankings[row[1].lower().strip()] = int(row[0])`. -/
def load_ur_go : List (List PyStr) → List (PyStr × Int) → Except Unit (List (PyStr × Int))
  | [], acc => .ok acc
  | row :: rest, acc =>
    if 2 ≤ row.length then
      match py_int (row.getD 0 []) with
      | none => .error ()
      | some rank =>
        let domain := py_strip (py_lower (row.getD 1 []))
        load_ur_go rest (py_dict_set acc domain rank)
    else load_ur_go rest acc

/-- The ranking loader of `scripts/update-ranks.py` (lines 39–47). -/
def load_rankings_ur (rows : List (List PyStr)) : Except Unit (List (PyStr × Int)) :=
  load_ur_go rows []

/-! ## Feeds -/

/-- Modelled from the spec: the authority component extracted by the
standard library's `urlparse` (an external collaborator whose code is not
part of this repository): the segment that follows the first `//`, up to
the next `/`, `?` or `#`; empty when the URL has no `//`. -/
def py_netloc : PyStr → PyStr
  | [] => []
  | '/' :: '/' :: rest => rest.takeWhile (fun c => c ≠ '/' ∧ c ≠ '?' ∧ c ≠ '#')
  | _ :: rest => py_netloc rest

/-- `extract_domain` from both scripts: `urlparse(url).netloc.lower()`,
then strip a leading `"www."`. -/
def extract_domain (url : PyStr) : PyStr :=
  let domain := py_lower (py_netloc url)
  if "www.".data.isPrefixOf domain then domain.drop 4 else domain

example : extract_domain "https://www.example.com/feed".data = "example.com".data := by decide
example : extract_domain "www.example.com/feed".data = "".data := by decide

/-- One row of `feeds.csv`, as `csv.DictReader` hands it over:
the cells of the `name` and `url` columns. -/
structure FeedRow where
  name : PyStr
  url : PyStr

/-- A loaded feed record of `generate-import.py`. -/
structure Feed where
  name : PyStr
  url : PyStr
  domain : PyStr
deriving DecidableEq

/-- `load_feeds` from `scripts/generate-import.py` (lines 74–88): rows whose
stripped `url` is empty are dropped; the rest become feed records. -/
def load_feeds : List FeedRow → List Feed
  | [] => []
  | row :: rest =>
    let name := py_strip row.name
    let url := py_strip row.url
    if url ≠ [] then
      { name := name, url := url, domain := extract_domain url } :: load_feeds rest
    else load_feeds rest

/-! ## The insert generator (`main` of `generate-import.py`) -/

/-- The ranking scan in `main` (lines 115–120): the first entry of the
rankings dict, in iteration order, whose domain matches wins. -/
def find_rank_gi (domain : PyStr) : List (PyStr × GIInfo) → Option Int
  | [] => none
  | (ranked_domain, info) :: rest =>
    if domains_match_gi domain ranked_domain then some info.1
    else find_rank_gi domain rest

/-- The ranking scan of `update-ranks.py` (lines 57–62). -/
def find_rank_ur (domain : PyStr) : List (PyStr × Int) → Option Int
  | [] => none
  | (ranked_domain, rank) :: rest =>
    if domains_match_ur domain ranked_domain then some rank
    else find_rank_ur domain rest

/-- Python truthiness of the `rank` variable in `main`
(`None` and `0` are falsy). -/
def py_truthy : Option Int → Bool
  | none => false
  | some r => r ≠ 0

/-- `escape_sql` from `generate-import.py`: `None` becomes `NULL`, a string
is quoted with each `'` doubled. -/
def escape_sql : Option PyStr → PyStr
  | none => "NULL".data
  | some s => '\'' :: sql_escape_body s ++ ['\'']
where
  sql_escape_body : List Char → List Char
  | [] => []
  | c :: cs =>
    if c = '\'' then '\'' :: '\'' :: sql_escape_body cs
    else c :: sql_escape_body cs

/-- `str(rank) if rank else 'NULL'`. -/
def rank_val (rank : Option Int) : PyStr :=
  if py_truthy rank then
    match rank with
    | some r => (toString r).data
    | none => []
  else "NULL".data

/-- The INSERT line printed for one feed (line 127 of `generate-import.py`). -/
def insert_stmt (feed : Feed) (rv : PyStr) : PyStr :=
  "INSERT OR IGNORE INTO feeds (name, url, domain, rank) VALUES (".data
    ++ escape_sql (some feed.name) ++ ", ".data
    ++ escape_sql (some feed.url) ++ ", ".data
    ++ escape_sql (some feed.domain) ++ ", ".data
    ++ rv ++ ");".data

/-- The feed loop of `main` (lines 110–129): for each feed one INSERT line,
and one of the two counters (`matched`, `unmatched`) is incremented
according to the truthiness of the looked-up rank. -/
def gen_inserts (rankings : List (PyStr × GIInfo)) : List Feed → List PyStr × Nat × Nat
  | [] => ([], 0, 0)
  | feed :: rest =>
    let rank := find_rank_gi feed.domain rankings
    let (stmts, m, u) := gen_inserts rankings rest
    (insert_stmt feed (rank_val rank) :: stmts,
     (if py_truthy rank then 1 else 0) + m,
     (if py_truthy rank then 0 else 1) + u)

/-- `main` of `generate-import.py`: rankings are loaded before anything is
printed, so a loader failure yields no output at all. -/
def main_gi (ranking_rows : List (List PyStr)) (feed_rows : List FeedRow) :
    Except Unit (List PyStr × Nat × Nat) :=
  match load_rankings_gi ranking_rows with
  | .error e => .error e
  | .ok rankings => .ok (gen_inserts rankings (load_feeds feed_rows))

/-! ## The update generator (module body of `update-ranks.py`) -/

/-- The UPDATE line of `update-ranks.py` (line 60). -/
def update_stmt (url : PyStr) (rank : Int) : PyStr :=
  "UPDATE feeds SET rank = ".data ++ (toString rank).data
    ++ " WHERE url = '".data ++ escape_sql.sql_escape_body url ++ "';".data

/-- The feed loop of `update-ranks.py` (lines 50–63): rows with an empty
stripped url are skipped; an UPDATE line is printed exactly when the scan
finds a matching ranking entry. -/
def gen_updates (rankings : List (PyStr × Int)) : List FeedRow → List PyStr × Nat
  | [] => ([], 0)
  | row :: rest =>
    let (stmts, m) := gen_updates rankings rest
    let url := py_strip row.url
    if url ≠ [] then
      match find_rank_ur (extract_domain url) rankings with
      | some rank => (update_stmt url rank :: stmts, 1 + m)
      | none => (stmts, m)
    else (stmts, m)

/-- The module body of `update-ranks.py`: rankings are loaded before the
feed loop runs, so a loader failure yields no output at all. -/
def main_ur (ranking_rows : List (List PyStr)) (feed_rows : List FeedRow) :
    Except Unit (List PyStr × Nat) :=
  match load_rankings_ur ranking_rows with
  | .error e => .error e
  | .ok rankings => .ok (gen_updates rankings feed_rows)

/-- `true` iff the string does not start with a whitespace character. -/
def head_not_space : PyStr → Bool
  | [] => true
  | c :: _ => !py_isspace c

/-- The keys of a key list in first-occurrence order, given the keys
already seen. -/
def first_occ_aux (seen : List PyStr) : List PyStr → List PyStr
  | [] => []
  | k :: ks => if k ∈ seen then first_occ_aux seen ks
               else k :: first_occ_aux (k :: seen) ks

/-- The keys of a key list in first-occurrence order. -/
def first_occ (ks : List PyStr) : List PyStr := first_occ_aux [] ks

/-- The value attached to the last binding of a key in a pair list. -/
def last_binding {V : Type} : List (PyStr × V) → PyStr → Option V
  | [], _ => none
  | (k', v) :: ps, k =>
    match last_binding ps k with
    | some w => some w
    | none => if k' = k then some v else none

/-- The (key, value) pairs that the `generate-import.py` loader would
write, row by row, when every non-skipped row parses. -/
def gi_pairs (rows : List (List PyStr)) : List (PyStr × GIInfo) :=
  rows.filterMap (fun row =>
    if 6 ≤ row.length then
      (py_int (row.getD 0 [])).map (fun rank =>
        (py_strip (py_lower (row.getD 1 [])),
         (rank, py_strip (row.getD 5 []))))
    else none)

/-- The (key, value) pairs that the `update-ranks.py` loader would write. -/
def ur_pairs (rows : List (List PyStr)) : List (PyStr × Int) :=
  rows.filterMap (fun row =>
    if 2 ≤ row.length then
      (py_int (row.getD 0 [])).map (fun rank =>
        (py_strip (py_lower (row.getD 1 [])), rank))
    else none)

/-- Folding a pair list into a dict, left to right. -/
def dict_fold {V : Type} (d : List (PyStr × V)) (ps : List (PyStr × V)) :
    List (PyStr × V) :=
  ps.foldl (fun d p => py_dict_set d p.1 p.2) d

/-! ## Theorems -/

/-- C6: the two scripts implement the same Domain Matcher —
`domains_match` of `generate-import.py` and `domains_match` of
`update-ranks.py` agree on every pair of input strings. -/
theorem domains_match_gi_eq_ur (f r : PyStr) :
    domains_match_gi f r = domains_match_ur f r := rfl

/-- C1: `domains_match` returns `true` exactly when, after normalization,
the two strings are equal, one ends with `"."` followed by the other, or
the ranked string contains a `/` and the feed string equals — or ends with
`"."` followed by — the part of the ranked string before its first `/`;
it returns `false` in every other case. -/
theorem domains_match_characterization (feed ranked : PyStr) :
    domains_match_gi feed ranked = true ↔
      (normalize_domain feed = normalize_domain ranked
       ∨ List.isSuffixOf ('.' :: normalize_domain ranked) (normalize_domain feed)
       ∨ List.isSuffixOf ('.' :: normalize_domain feed) (normalize_domain ranked)
       ∨ ('/' ∈ normalize_domain ranked
          ∧ (normalize_domain feed = py_before_slash (normalize_domain ranked)
             ∨ List.isSuffixOf ('.' :: py_before_slash (normalize_domain ranked))
                 (normalize_domain feed)))) := by
  simp only [domains_match_gi]
  split_ifs <;> simp_all

/-- C5 counterexample: contrary to the claim (and to §8 of the spec),
`domains_match("microsoft.com", "devblogs.microsoft.com/oldnewthing")`
is `false`: the path rule only fires when the feed domain equals, or is a
subdomain of, the base `devblogs.microsoft.com`, and the parent domain
`microsoft.com` is neither. -/
theorem path_rule_fwd_counterexample :
    domains_match_gi "microsoft.com".data
      "devblogs.microsoft.com/oldnewthing".data = false := by decide

/-- C5 (amended): path-splitting applies only to the second (ranked)
argument, and lets the feed domain match the base of a ranked entry that
carries a path: `domains_match("devblogs.microsoft.com",
"devblogs.microsoft.com/oldnewthing")` is `true`; the call
`domains_match("microsoft.com", "devblogs.microsoft.com/oldnewthing")` is
`false` (the feed must equal or extend the base, not the reverse); the
reversed call `domains_match("devblogs.microsoft.com/oldnewthing",
"microsoft.com")` is `false`, a `/` in the feed argument being an ordinary
character. -/
theorem path_rule_asymmetry :
    domains_match_gi "devblogs.microsoft.com".data
        "devblogs.microsoft.com/oldnewthing".data = true
    ∧ domains_match_gi "microsoft.com".data
        "devblogs.microsoft.com/oldnewthing".data = false
    ∧ domains_match_gi "devblogs.microsoft.com/oldnewthing".data
        "microsoft.com".data = false := by decide

/-- C2: in both scripts the rank lookup returns the rank of the first
entry, in stored order, whose domain matches — entries before it all fail
`domains_match` — and returns `none` when every entry fails. -/
theorem find_rank_first_match (fd d d' : PyStr) (r : GIInfo) (r' : Int)
    (pre post l : List (PyStr × GIInfo))
    (pre' post' l' : List (PyStr × Int))
    (hpre : ∀ p ∈ pre, domains_match_gi fd p.1 = false)
    (hd : domains_match_gi fd d = true)
    (hl : ∀ p ∈ l, domains_match_gi fd p.1 = false)
    (hpre' : ∀ p ∈ pre', domains_match_ur fd p.1 = false)
    (hd' : domains_match_ur fd d' = true)
    (hl' : ∀ p ∈ l', domains_match_ur fd p.1 = false) :
    find_rank_gi fd (pre ++ (d, r) :: post) = some r.1
    ∧ find_rank_gi fd l = none
    ∧ find_rank_ur fd (pre' ++ (d', r') :: post') = some r'
    ∧ find_rank_ur fd l' = none := by
  refine ⟨?_, ?_, ?_, ?_⟩
  · induction pre with
    | nil => simp [find_rank_gi, hd]
    | cons p ps ih =>
      have hp := hpre p (List.mem_cons_self p ps)
      simp only [List.cons_append, find_rank_gi, hp, Bool.false_eq_true, if_false]
      exact ih (fun q hq => hpre q (List.mem_cons_of_mem p hq))
  · induction l with
    | nil => rfl
    | cons p ps ih =>
      have hp := hl p (List.mem_cons_self p ps)
      simp only [find_rank_gi, hp, Bool.false_eq_true, if_false]
      exact ih (fun q hq => hl q (List.mem_cons_of_mem p hq))
  · induction pre' with
    | nil => simp [find_rank_ur, hd']
    | cons p ps ih =>
      have hp := hpre' p (List.mem_cons_self p ps)
      simp only [List.cons_append, find_rank_ur, hp, Bool.false_eq_true, if_false]
      exact ih (fun q hq => hpre' q (List.mem_cons_of_mem p hq))
  · induction l' with
    | nil => rfl
    | cons p ps ih =>
      have hp := hl' p (List.mem_cons_self p ps)
      simp only [find_rank_ur, hp, Bool.false_eq_true, if_false]
      exact ih (fun q hq => hl' q (List.mem_cons_of_mem p hq))

/-- C2 witness: with rankings `[("x.org", (5, "A")), ("example.com", (9, "B")),
("example.com", (7, "C"))]` the feed domain `example.com` picks up rank 9
from the earliest matching entry, and an unmatched domain yields `none`;
likewise for the update script's scan. -/
theorem find_rank_first_match_witness :
    find_rank_gi "example.com".data
        ([("x.org".data, ((5 : Int), "A".data))]
          ++ ("example.com".data, ((9 : Int), "B".data))
            :: [("example.com".data, ((7 : Int), "C".data))]) = some 9
    ∧ find_rank_gi "example.com".data [("x.org".data, ((5 : Int), "A".data))] = none
    ∧ find_rank_ur "example.com".data
        ([("x.org".data, (5 : Int))]
          ++ ("example.com".data, (9 : Int)) :: [("example.com".data, (7 : Int))]) = some 9
    ∧ find_rank_ur "example.com".data [("x.org".data, (5 : Int))] = none :=
  find_rank_first_match "example.com".data "example.com".data "example.com".data
    (9, "B".data) 9
    [("x.org".data, ((5 : Int), "A".data))] [("example.com".data, ((7 : Int), "C".data))]
    [("x.org".data, ((5 : Int), "A".data))]
    [("x.org".data, (5 : Int))] [("example.com".data, (7 : Int))]
    [("x.org".data, (5 : Int))]
    (by decide) (by decide) (by decide) (by decide) (by decide) (by decide)

/-- Helper: the feed loop emits exactly the mapped INSERT lines, and the
counters count the feeds whose looked-up rank is truthy resp. falsy. -/
theorem gen_inserts_eq (rk : List (PyStr × GIInfo)) (fs : List Feed) :
    gen_inserts rk fs =
      (fs.map (fun f => insert_stmt f (rank_val (find_rank_gi f.domain rk))),
       (fs.filter (fun f => py_truthy (find_rank_gi f.domain rk))).length,
       (fs.filter (fun f => !py_truthy (find_rank_gi f.domain rk))).length) := by
  induction fs with
  | nil => rfl
  | cons f fs ih =>
    by_cases h : py_truthy (find_rank_gi f.domain rk) = true
    · simp [gen_inserts, ih, h, List.filter_cons, Nat.add_comm]
    · simp only [Bool.not_eq_true] at h
      simp [gen_inserts, ih, h, List.filter_cons, Nat.add_comm]

/-- Helper: every feed increments exactly one counter. -/
theorem gen_inserts_counters (rk : List (PyStr × GIInfo)) (fs : List Feed) :
    (gen_inserts rk fs).2.1 + (gen_inserts rk fs).2.2 = fs.length := by
  rw [gen_inserts_eq]
  exact (@List.length_eq_length_filter_add Feed fs
    (fun f => py_truthy (find_rank_gi f.domain rk))).symm

/-- C4 counterexample: with the single ranking entry `("a", rank 0)` and a
feed with domain `a`, the lookup returns rank 0, yet the emitted statement
carries `NULL` and the unmatched counter — not the matched one — is
incremented, because `if rank:` treats the integer 0 as false. -/
theorem rank_zero_counterexample :
    find_rank_gi "a".data [("a".data, ((0 : Int), "".data))] = some 0
    ∧ (gen_inserts [("a".data, ((0 : Int), "".data))]
        [{ name := "n".data, url := "u".data, domain := "a".data }]).2.1 = 0
    ∧ (gen_inserts [("a".data, ((0 : Int), "".data))]
        [{ name := "n".data, url := "u".data, domain := "a".data }]).2.2 = 1
    ∧ rank_val (some 0) = "NULL".data := by decide

/-- C4 (amended): for every loaded feed the insert generator emits exactly
one INSERT statement; that statement carries `NULL` with the unmatched
counter incremented exactly when the rank lookup finds no entry or returns
rank 0, and whenever the lookup returns a nonzero rank `r` the statement
carries `r` with the matched counter incremented. -/
theorem gen_inserts_rank_behaviour (rk : List (PyStr × GIInfo)) (fs : List Feed)
    (r : Int) (hr : r ≠ 0) :
    (gen_inserts rk fs).1
      = fs.map (fun f => insert_stmt f (rank_val (find_rank_gi f.domain rk)))
    ∧ (gen_inserts rk fs).2.1
      = (fs.filter (fun f => py_truthy (find_rank_gi f.domain rk))).length
    ∧ (gen_inserts rk fs).2.2
      = (fs.filter (fun f => !py_truthy (find_rank_gi f.domain rk))).length
    ∧ (∀ rank : Option Int, py_truthy rank = false ↔ rank = none ∨ rank = some 0)
    ∧ rank_val none = "NULL".data
    ∧ rank_val (some 0) = "NULL".data
    ∧ rank_val (some r) = (toString r).data
    ∧ py_truthy (some r) = true := by
  refine ⟨by rw [gen_inserts_eq], by rw [gen_inserts_eq], by rw [gen_inserts_eq],
    ?_, rfl, rfl, ?_, ?_⟩
  · intro rank
    match rank with
    | none => simp [py_truthy]
    | some v => simp [py_truthy]
  · simp [rank_val, py_truthy, hr]
  · simp [py_truthy, hr]

/-- C4 witness: a concrete run with one matching nonzero-rank entry. -/
theorem gen_inserts_rank_behaviour_witness :
    (1 : Int) ≠ 0
    ∧ ((gen_inserts [("example.com".data, ((1 : Int), "A".data))]
          [Feed.mk "Ex".data "https://www.example.com/feed".data "example.com".data]).1
        = [Feed.mk "Ex".data "https://www.example.com/feed".data "example.com".data].map
            (fun f => insert_stmt f (rank_val (find_rank_gi f.domain
              [("example.com".data, ((1 : Int), "A".data))])))
       ∧ (gen_inserts [("example.com".data, ((1 : Int), "A".data))]
          [Feed.mk "Ex".data "https://www.example.com/feed".data "example.com".data]).2.1
        = ([Feed.mk "Ex".data "https://www.example.com/feed".data "example.com".data].filter
            (fun f => py_truthy (find_rank_gi f.domain
              [("example.com".data, ((1 : Int), "A".data))]))).length
       ∧ (gen_inserts [("example.com".data, ((1 : Int), "A".data))]
          [Feed.mk "Ex".data "https://www.example.com/feed".data "example.com".data]).2.2
        = ([Feed.mk "Ex".data "https://www.example.com/feed".data "example.com".data].filter
            (fun f => !py_truthy (find_rank_gi f.domain
              [("example.com".data, ((1 : Int), "A".data))]))).length
       ∧ (∀ rank : Option Int, py_truthy rank = false ↔ rank = none ∨ rank = some 0)
       ∧ rank_val none = "NULL".data
       ∧ rank_val (some 0) = "NULL".data
       ∧ rank_val (some 1) = (toString (1 : Int)).data
       ∧ py_truthy (some 1) = true) :=
  ⟨by decide,
   gen_inserts_rank_behaviour [("example.com".data, ((1 : Int), "A".data))]
     [Feed.mk "Ex".data "https://www.example.com/feed".data "example.com".data]
     1 (by decide)⟩

/-- C10: the loaded feeds are exactly the input rows whose stripped url is
non-empty; each loaded feed contributes exactly one INSERT line and
increments exactly one of the two counters, so matched + unmatched equals
the number of loaded feeds, and rows with an empty url produce no output
and affect no counter. -/
theorem load_feeds_totals (rows : List FeedRow) (rk : List (PyStr × GIInfo)) :
    load_feeds rows
      = (rows.filter (fun r => decide (py_strip r.url ≠ []))).map
          (fun r => Feed.mk (py_strip r.name) (py_strip r.url)
            (extract_domain (py_strip r.url)))
    ∧ (gen_inserts rk (load_feeds rows)).2.1 + (gen_inserts rk (load_feeds rows)).2.2
        = (load_feeds rows).length
    ∧ (gen_inserts rk (load_feeds rows)).1.length = (load_feeds rows).length := by
  refine ⟨?_, gen_inserts_counters rk (load_feeds rows), ?_⟩
  · induction rows with
    | nil => rfl
    | cons row rest ih =>
      by_cases h : py_strip row.url = []
      · simp [load_feeds, h, List.filter_cons, ih]
      · simp [load_feeds, h, List.filter_cons, ih]
  · rw [gen_inserts_eq]
    exact List.length_map _ _

/-! ## Normalization: what survives of idempotence -/

/-- C3 counterexample: `normalize` is not idempotent.  Stripping whitespace
and the `"www."` label happen once, in a fixed order, so
`normalize("www.www.a") = "www.a"` while a second application gives `"a"`. -/
theorem normalize_domain_not_idempotent :
    normalize_domain "www.www.a".data = "www.a".data
    ∧ normalize_domain (normalize_domain "www.www.a".data) = "a".data
    ∧ normalize_domain (normalize_domain "www.www.a".data)
        ≠ normalize_domain "www.www.a".data := by decide

theorem char_ofNat_toNat (n : Nat) (h : n < 55296) : (Char.ofNat n).toNat = n := by
  unfold Char.ofNat
  rw [dif_pos (Or.inl h)]
  rfl

theorem py_lower_char_idem (c : Char) :
    py_lower_char (py_lower_char c) = py_lower_char c := by
  unfold py_lower_char
  by_cases h : 65 ≤ c.toNat ∧ c.toNat ≤ 90
  · rw [if_pos h]
    have h2 : (Char.ofNat (c.toNat + 32)).toNat = c.toNat + 32 :=
      char_ofNat_toNat _ (by omega)
    rw [if_neg (by rw [h2]; omega)]
  · rw [if_neg h, if_neg h]

/-- A string all of whose characters are fixed by lower-casing is fixed by
`py_lower`. -/
theorem py_lower_fixed {s : PyStr} (h : ∀ c ∈ s, py_lower_char c = c) :
    py_lower s = s :=
  (List.map_congr_left h).trans (List.map_id s)

/-- Every character of `py_lower s` is fixed by lower-casing. -/
theorem mem_py_lower_fixed {s : PyStr} {c : Char} (h : c ∈ py_lower s) :
    py_lower_char c = c := by
  rcases List.mem_map.mp h with ⟨a, _, rfl⟩
  exact py_lower_char_idem a

/-- Characters of the right-stripped string are characters of the string. -/
theorem mem_of_mem_py_rstrip {t : PyStr} {c : Char} (h : c ∈ py_rstrip t) : c ∈ t := by
  unfold py_rstrip at h
  exact List.mem_reverse.mp
    ((List.dropWhile_sublist py_isspace).mem (List.mem_reverse.mp h))

/-- Characters of the stripped string are characters of the string. -/
theorem mem_of_mem_py_strip {s : PyStr} {c : Char} (h : c ∈ py_strip s) : c ∈ s :=
  (List.dropWhile_sublist py_isspace).mem (mem_of_mem_py_rstrip h)

/-- The head of a `dropWhile` does not satisfy the predicate. -/
theorem head?_dropWhile_not {p : Char → Bool} :
    ∀ (l : PyStr) (c : Char), (l.dropWhile p).head? = some c → p c = false := by
  intro l
  induction l with
  | nil => intro c h; cases h
  | cons a l ih =>
    intro c h
    by_cases hp : p a = true
    · rw [List.dropWhile_cons_of_pos hp] at h
      exact ih c h
    · rw [List.dropWhile_cons_of_neg hp] at h
      cases h
      simpa using hp

/-- The last character of `py_rstrip s` is not whitespace. -/
theorem getLast?_py_rstrip (s : PyStr) (c : Char)
    (h : (py_rstrip s).getLast? = some c) : py_isspace c = false := by
  unfold py_rstrip at h
  rw [List.getLast?_reverse] at h
  exact head?_dropWhile_not _ c h

/-- Dropping a prefix cannot create trailing whitespace. -/
theorem getLast?_drop_eq (s : PyStr) (n : Nat) (c : Char)
    (h : (s.drop n).getLast? = some c) : s.getLast? = some c := by
  rcases List.drop_suffix n s with ⟨t, ht⟩
  have hne : s.drop n ≠ [] := by
    intro he
    rw [he] at h
    cases h
  rw [← ht, List.getLast?_append_of_ne_nil t hne]
  exact h

/-- A string whose head is not whitespace is fixed by `py_lstrip`. -/
theorem py_lstrip_fixed {s : PyStr} (h : head_not_space s = true) :
    py_lstrip s = s := by
  unfold py_lstrip
  cases s with
  | nil => rfl
  | cons c cs =>
    simp only [head_not_space, Bool.not_eq_true'] at h
    exact List.dropWhile_cons_of_neg (by simp [h])

/-- A string whose last character is not whitespace is fixed by `py_rstrip`. -/
theorem py_rstrip_fixed {s : PyStr}
    (h : ∀ c, s.getLast? = some c → py_isspace c = false) :
    py_rstrip s = s := by
  unfold py_rstrip
  have : s.reverse.dropWhile py_isspace = s.reverse := by
    cases hr : s.reverse with
    | nil => rfl
    | cons c cs =>
      have hc : s.getLast? = some c := by
        rw [← List.head?_reverse, hr]
        rfl
      exact List.dropWhile_cons_of_neg (by simp [h c hc])
  rw [this, List.reverse_reverse]

/-- The normalized string never ends in whitespace. -/
theorem normalize_domain_getLast (x : PyStr) (c : Char)
    (h : (normalize_domain x).getLast? = some c) : py_isspace c = false := by
  simp only [normalize_domain, py_strip] at h
  split at h
  · exact getLast?_py_rstrip _ c (getLast?_drop_eq _ 4 c h)
  · exact getLast?_py_rstrip _ c h

/-- Every character of the normalized string is fixed by lower-casing. -/
theorem normalize_domain_lower (x : PyStr) {c : Char}
    (h : c ∈ normalize_domain x) : py_lower_char c = c := by
  simp only [normalize_domain] at h
  have hm : c ∈ py_strip (py_lower x) := by
    split at h
    · exact (List.drop_sublist 4 _).mem h
    · exact h
  exact mem_py_lower_fixed (mem_of_mem_py_strip hm)

/-- C3 (amended): `normalize` is idempotent on every string whose
normalization neither starts with `"www."` nor starts with whitespace —
the two escapes that a single pass can leave behind. -/
theorem normalize_domain_idem_of (x : PyStr)
    (h1 : "www.".data.isPrefixOf (normalize_domain x) = false)
    (h2 : head_not_space (normalize_domain x) = true) :
    normalize_domain (normalize_domain x) = normalize_domain x := by
  have hlow : py_lower (normalize_domain x) = normalize_domain x :=
    py_lower_fixed (fun c hc => normalize_domain_lower x hc)
  have hl : py_lstrip (normalize_domain x) = normalize_domain x :=
    py_lstrip_fixed h2
  have hr : py_rstrip (normalize_domain x) = normalize_domain x :=
    py_rstrip_fixed (fun c hc => normalize_domain_getLast x c hc)
  conv_lhs => rw [normalize_domain]
  simp only [hlow, py_strip, hl, hr, h1, Bool.false_eq_true, if_false]

/-- C3 witness: `" WWW.Example.com "` normalizes to `"example.com"`,
which starts with neither `"www."` nor whitespace, and a second
normalization leaves it unchanged. -/
theorem normalize_domain_idem_of_witness :
    "www.".data.isPrefixOf (normalize_domain " WWW.Example.com ".data) = false
    ∧ head_not_space (normalize_domain " WWW.Example.com ".data) = true
    ∧ normalize_domain (normalize_domain " WWW.Example.com ".data)
        = normalize_domain " WWW.Example.com ".data :=
  ⟨by decide, by decide,
   normalize_domain_idem_of " WWW.Example.com ".data (by decide) (by decide)⟩

/-! ## Loader error handling -/

/-- Helper: the `generate-import.py` loader ignores a row with fewer than
6 columns wherever it occurs. -/
theorem load_gi_go_skip (row : List PyStr) (h : row.length < 6) :
    ∀ rows1 rows2 acc,
      load_gi_go (rows1 ++ row :: rows2) acc = load_gi_go (rows1 ++ rows2) acc := by
  intro rows1
  induction rows1 with
  | nil =>
    intro rows2 acc
    simp only [List.nil_append, load_gi_go, if_neg (Nat.not_le.mpr h)]
  | cons r rs ih =>
    intro rows2 acc
    simp only [List.cons_append, load_gi_go]
    by_cases h6 : 6 ≤ r.length
    · simp only [if_pos h6]
      cases py_int (r.getD 0 []) with
      | none => rfl
      | some rank => exact ih rows2 _
    · simp only [if_neg h6]
      exact ih rows2 acc

/-- Helper: the `update-ranks.py` loader ignores a row with fewer than
2 columns wherever it occurs. -/
theorem load_ur_go_skip (row : List PyStr) (h : row.length < 2) :
    ∀ rows1 rows2 acc,
      load_ur_go (rows1 ++ row :: rows2) acc = load_ur_go (rows1 ++ rows2) acc := by
  intro rows1
  induction rows1 with
  | nil =>
    intro rows2 acc
    simp only [List.nil_append, load_ur_go, if_neg (Nat.not_le.mpr h)]
  | cons r rs ih =>
    intro rows2 acc
    simp only [List.cons_append, load_ur_go]
    by_cases h2 : 2 ≤ r.length
    · simp only [if_pos h2]
      cases py_int (r.getD 0 []) with
      | none => rfl
      | some rank => exact ih rows2 _
    · simp only [if_neg h2]
      exact ih rows2 acc

/-- C7 counterexample: a ranking row with only 2 columns is *not* skipped
by both scripts — `update-ranks.py` parses it into an entry, while
`generate-import.py` skips it. -/
theorem short_row_counterexample :
    load_rankings_ur [["7".data, "Ex.com ".data]]
      = .ok [("ex.com".data, (7 : Int))]
    ∧ load_rankings_gi [["7".data, "Ex.com ".data]] = .ok [] := ⟨rfl, rfl⟩

/-- C7 (amended): each loader silently skips rows below its own column
threshold — fewer than 6 columns in `generate-import.py`, fewer than 2 in
`update-ranks.py` — such a row contributes no ranking entry and raises no
error, and only rows at or above the threshold are parsed. -/
theorem short_rows_skipped (rowA rowB : List PyStr)
    (rows1 rows2 rows3 rows4 : List (List PyStr))
    (hA : rowA.length < 6) (hB : rowB.length < 2) :
    load_rankings_gi (rows1 ++ rowA :: rows2) = load_rankings_gi (rows1 ++ rows2)
    ∧ load_rankings_ur (rows3 ++ rowB :: rows4) = load_rankings_ur (rows3 ++ rows4) :=
  ⟨load_gi_go_skip rowA hA rows1 rows2 [], load_ur_go_skip rowB hB rows3 rows4 []⟩

/-- C7 witness: a 5-column row disappears from the `generate-import.py`
load and a 1-column row from the `update-ranks.py` load. -/
theorem short_rows_skipped_witness :
    load_rankings_gi ([["1".data, "a.com".data, [], [], []]] ++ [])
      = load_rankings_gi ([] : List (List PyStr))
    ∧ load_rankings_ur ([["x".data]] ++ []) = load_rankings_ur ([] : List (List PyStr)) := by
  have h := short_rows_skipped ["1".data, "a.com".data, [], [], []] ["x".data]
    [] [] [] [] (by decide) (by decide)
  simpa using h

/-- Helper: a single non-skipped row whose rank cell does not parse makes
the `generate-import.py` loader fail, from any intermediate state. -/
theorem load_gi_go_error :
    ∀ rows : List (List PyStr),
      (∃ row ∈ rows, 6 ≤ row.length ∧ py_int (row.getD 0 []) = none) →
      ∀ acc, load_gi_go rows acc = .error () := by
  intro rows
  induction rows with
  | nil =>
    rintro ⟨row, hmem, -⟩
    cases hmem
  | cons r rs ih =>
    rintro ⟨row, hmem, hlen, hbad⟩ acc
    rcases List.mem_cons.mp hmem with heq | hmem'
    · subst heq
      simp only [load_gi_go, if_pos hlen, hbad]
    · simp only [load_gi_go]
      by_cases h6 : 6 ≤ r.length
      · simp only [if_pos h6]
        cases py_int (r.getD 0 []) with
        | none => rfl
        | some rank => exact ih ⟨row, hmem', hlen, hbad⟩ _
      · simp only [if_neg h6]
        exact ih ⟨row, hmem', hlen, hbad⟩ acc

/-- Helper: the same for the `update-ranks.py` loader. -/
theorem load_ur_go_error :
    ∀ rows : List (List PyStr),
      (∃ row ∈ rows, 2 ≤ row.length ∧ py_int (row.getD 0 []) = none) →
      ∀ acc, load_ur_go rows acc = .error () := by
  intro rows
  induction rows with
  | nil =>
    rintro ⟨row, hmem, -⟩
    cases hmem
  | cons r rs ih =>
    rintro ⟨row, hmem, hlen, hbad⟩ acc
    rcases List.mem_cons.mp hmem with heq | hmem'
    · subst heq
      simp only [load_ur_go, if_pos hlen, hbad]
    · simp only [load_ur_go]
      by_cases h2 : 2 ≤ r.length
      · simp only [if_pos h2]
        cases py_int (r.getD 0 []) with
        | none => rfl
        | some rank => exact ih ⟨row, hmem', hlen, hbad⟩ _
      · simp only [if_neg h2]
        exact ih ⟨row, hmem', hlen, hbad⟩ acc

/-- C8: a non-skipped ranking row whose rank cell is not numeric aborts
each script before any SQL statement is produced: the whole run is an
error and no partial output exists for the feeds. -/
theorem bad_rank_aborts_run (rrows : List (List PyStr)) (frows : List FeedRow)
    (hgi : ∃ row ∈ rrows, 6 ≤ row.length ∧ py_int (row.getD 0 []) = none)
    (hur : ∃ row ∈ rrows, 2 ≤ row.length ∧ py_int (row.getD 0 []) = none) :
    main_gi rrows frows = .error () ∧ main_ur rrows frows = .error () := by
  constructor
  · unfold main_gi
    rw [show load_rankings_gi rrows = .error ()
      from load_gi_go_error rrows hgi []]
  · unfold main_ur
    rw [show load_rankings_ur rrows = .error ()
      from load_ur_go_error rrows hur []]

/-- C8 witness: a 6-column row with rank cell `"abc"` aborts both scripts,
even with a feed present. -/
theorem bad_rank_aborts_run_witness :
    main_gi [["abc".data, "a.com".data, [], [], [], "A".data]]
        [FeedRow.mk "N".data "https://a.com/f".data] = .error ()
    ∧ main_ur [["abc".data, "a.com".data, [], [], [], "A".data]]
        [FeedRow.mk "N".data "https://a.com/f".data] = .error () :=
  bad_rank_aborts_run [["abc".data, "a.com".data, [], [], [], "A".data]]
    [FeedRow.mk "N".data "https://a.com/f".data]
    ⟨["abc".data, "a.com".data, [], [], [], "A".data], by decide, by decide, by decide⟩
    ⟨["abc".data, "a.com".data, [], [], [], "A".data], by decide, by decide, by decide⟩

/-! ## Duplicate domains in the ranking table -/

/-- Unfolding equation: inserting into an empty dict. -/
theorem py_dict_set_nil {V : Type} (k : PyStr) (v : V) :
    py_dict_set [] k v = [(k, v)] := rfl

/-- Unfolding equation: inserting into a non-empty dict. -/
theorem py_dict_set_cons {V : Type} (k' : PyStr) (v' : V) (d : List (PyStr × V))
    (k : PyStr) (v : V) :
    py_dict_set ((k', v') :: d) k v =
      if k' = k then (k', v) :: d else (k', v') :: py_dict_set d k v := rfl

/-- Helper: keys after `py_dict_set`. -/
theorem keys_py_dict_set {V : Type} (d : List (PyStr × V)) (k : PyStr) (v : V) :
    (py_dict_set d k v).map Prod.fst =
      if k ∈ d.map Prod.fst then d.map Prod.fst else d.map Prod.fst ++ [k] := by
  induction d with
  | nil => rfl
  | cons p d ih =>
    obtain ⟨k', v'⟩ := p
    by_cases h : k' = k
    · subst h
      rw [py_dict_set_cons, if_pos rfl]
      have hmem : k' ∈ ((k', v') :: d).map Prod.fst := by
        rw [List.map_cons]
        exact List.mem_cons_self _ _
      rw [if_pos hmem]
      rfl
    · have hk : k ≠ k' := fun hh => h hh.symm
      rw [py_dict_set_cons, if_neg h, List.map_cons, List.map_cons, ih]
      have hcond : (k ∈ k' :: d.map Prod.fst) ↔ (k ∈ d.map Prod.fst) := by
        rw [List.mem_cons]
        exact ⟨fun hc => hc.resolve_left hk, Or.inr⟩
      by_cases hm : k ∈ d.map Prod.fst
      · rw [if_pos hm, if_pos (hcond.mpr hm)]
      · rw [if_neg hm, if_neg (fun hc => hm (hcond.mp hc))]
        rfl

/-- Unfolding equation: dict lookup on a non-empty dict. -/
theorem py_dict_find_cons {V : Type} (k0 : PyStr) (v0 : V) (d : List (PyStr × V))
    (k' : PyStr) :
    py_dict_find ((k0, v0) :: d) k' =
      if k0 = k' then some v0 else py_dict_find d k' := by
  unfold py_dict_find
  rw [List.find?_cons]
  by_cases h : k0 = k'
  · rw [decide_eq_true h, if_pos h]
    rfl
  · rw [decide_eq_false h, if_neg h]

/-- Helper: lookup after `py_dict_set`. -/
theorem find_py_dict_set {V : Type} (d : List (PyStr × V)) (k k' : PyStr) (v : V) :
    py_dict_find (py_dict_set d k v) k' =
      if k = k' then some v else py_dict_find d k' := by
  induction d with
  | nil =>
    rw [py_dict_set_nil, py_dict_find_cons]
  | cons p d ih =>
    obtain ⟨k0, v0⟩ := p
    by_cases h0 : k0 = k
    · subst h0
      rw [py_dict_set_cons, if_pos rfl, py_dict_find_cons, py_dict_find_cons]
      by_cases h : k0 = k'
      · rw [if_pos h, if_pos h]
      · rw [if_neg h, if_neg h, if_neg h]
    · rw [py_dict_set_cons, if_neg h0, py_dict_find_cons, py_dict_find_cons, ih]
      by_cases h : k0 = k'
      · subst h
        have hk : ¬(k = k0) := fun hh => h0 hh.symm
        rw [if_pos rfl, if_neg hk, if_pos rfl]
      · rw [if_neg h]
        by_cases hkk : k = k'
        · rw [if_pos hkk, if_pos hkk]
        · rw [if_neg hkk, if_neg hkk, if_neg h]

/-- Helper: `py_dict_set` preserves key distinctness. -/
theorem nodup_py_dict_set {V : Type} (d : List (PyStr × V)) (k : PyStr) (v : V)
    (h : (d.map Prod.fst).Nodup) : ((py_dict_set d k v).map Prod.fst).Nodup := by
  rw [keys_py_dict_set]
  by_cases hm : k ∈ d.map Prod.fst
  · rw [if_pos hm]
    exact h
  · rw [if_neg hm]
    exact List.Nodup.append h (List.nodup_singleton k)
      (fun a ha hk => hm ((List.mem_singleton.mp hk) ▸ ha))

/-- Unfolding equation: folding an empty pair list. -/
theorem dict_fold_nil {V : Type} (d : List (PyStr × V)) : dict_fold d [] = d := rfl

/-- Unfolding equation: folding a non-empty pair list. -/
theorem dict_fold_cons {V : Type} (d : List (PyStr × V)) (p : PyStr × V)
    (ps : List (PyStr × V)) :
    dict_fold d (p :: ps) = dict_fold (py_dict_set d p.1 p.2) ps := rfl

/-- Helper: `first_occ_aux` only depends on which keys have been seen. -/
theorem first_occ_aux_congr :
    ∀ (l : List PyStr) (s1 s2 : List PyStr), (∀ x, x ∈ s1 ↔ x ∈ s2) →
      first_occ_aux s1 l = first_occ_aux s2 l := by
  intro l
  induction l with
  | nil => intro s1 s2 h; rfl
  | cons k ks ih =>
    intro s1 s2 h
    by_cases hm : k ∈ s1
    · rw [first_occ_aux, if_pos hm, first_occ_aux, if_pos ((h k).mp hm)]
      exact ih s1 s2 h
    · rw [first_occ_aux, if_neg hm, first_occ_aux,
        if_neg (fun hc => hm ((h k).mpr hc))]
      rw [ih (k :: s1) (k :: s2)
        (fun x => by rw [List.mem_cons, List.mem_cons, h x])]

/-- Helper: the keys of a folded dict are the old keys followed by the
unseen new keys in first-occurrence order. -/
theorem keys_dict_fold {V : Type} :
    ∀ (ps : List (PyStr × V)) (d : List (PyStr × V)),
      (dict_fold d ps).map Prod.fst
        = d.map Prod.fst ++ first_occ_aux (d.map Prod.fst) (ps.map Prod.fst) := by
  intro ps
  induction ps with
  | nil => intro d; rw [dict_fold_nil, List.map_nil, first_occ_aux, List.append_nil]
  | cons p ps ih =>
    intro d
    obtain ⟨k, v⟩ := p
    rw [dict_fold_cons, ih (py_dict_set d k v), keys_py_dict_set, List.map_cons]
    by_cases hm : k ∈ d.map Prod.fst
    · rw [if_pos hm, first_occ_aux, if_pos hm]
    · rw [if_neg hm, first_occ_aux, if_neg hm, List.append_assoc,
        List.singleton_append]
      rw [first_occ_aux_congr (ps.map Prod.fst) (d.map Prod.fst ++ [k])
        (k :: d.map Prod.fst)
        (fun x => by rw [List.mem_append, List.mem_singleton, List.mem_cons, or_comm])]

/-- Helper: a folded dict has pairwise-distinct keys. -/
theorem nodup_dict_fold {V : Type} :
    ∀ (ps : List (PyStr × V)) (d : List (PyStr × V)),
      (d.map Prod.fst).Nodup → ((dict_fold d ps).map Prod.fst).Nodup := by
  intro ps
  induction ps with
  | nil => intro d h; exact h
  | cons p ps ih =>
    intro d h
    rw [dict_fold_cons]
    exact ih _ (nodup_py_dict_set d p.1 p.2 h)

/-- Helper: lookup in a folded dict returns the last binding written,
falling back to the original dict. -/
theorem find_dict_fold {V : Type} :
    ∀ (ps : List (PyStr × V)) (d : List (PyStr × V)) (k : PyStr),
      py_dict_find (dict_fold d ps) k =
        (match last_binding ps k with
         | some w => some w
         | none => py_dict_find d k) := by
  intro ps
  induction ps with
  | nil => intro d k; rfl
  | cons p ps ih =>
    intro d k
    obtain ⟨k0, v0⟩ := p
    rw [dict_fold_cons, ih]
    cases hlb : last_binding ps k with
    | some w => rw [last_binding, hlb]
    | none =>
      rw [find_py_dict_set, last_binding, hlb]
      by_cases h : k0 = k
      · rw [if_pos h, if_pos h]
      · rw [if_neg h, if_neg h]

/-- Helper: a successful `generate-import.py` load is the dict fold of the
row pairs. -/
theorem load_gi_go_ok :
    ∀ (rows : List (List PyStr)) (acc d : List (PyStr × GIInfo)),
      load_gi_go rows acc = .ok d → d = dict_fold acc (gi_pairs rows) := by
  intro rows
  induction rows with
  | nil =>
    intro acc d h
    cases h
    rfl
  | cons r rs ih =>
    intro acc d h
    rw [load_gi_go] at h
    by_cases h6 : 6 ≤ r.length
    · rw [if_pos h6] at h
      cases hpi : py_int (r.getD 0 []) with
      | none => rw [hpi] at h; cases h
      | some rank =>
        rw [hpi] at h
        have heq := ih _ d h
        rw [heq]
        simp only [gi_pairs, List.filterMap_cons, hpi, h6, if_true]
        rfl
    · rw [if_neg h6] at h
      have heq := ih _ d h
      rw [heq]
      simp only [gi_pairs, List.filterMap_cons, h6, if_false]

/-- Helper: a successful `update-ranks.py` load is the dict fold of the
row pairs. -/
theorem load_ur_go_ok :
    ∀ (rows : List (List PyStr)) (acc d : List (PyStr × Int)),
      load_ur_go rows acc = .ok d → d = dict_fold acc (ur_pairs rows) := by
  intro rows
  induction rows with
  | nil =>
    intro acc d h
    cases h
    rfl
  | cons r rs ih =>
    intro acc d h
    rw [load_ur_go] at h
    by_cases h2 : 2 ≤ r.length
    · rw [if_pos h2] at h
      cases hpi : py_int (r.getD 0 []) with
      | none => rw [hpi] at h; cases h
      | some rank =>
        rw [hpi] at h
        have heq := ih _ d h
        rw [heq]
        simp only [ur_pairs, List.filterMap_cons, hpi, h2, if_true]
        rfl
    · rw [if_neg h2] at h
      have heq := ih _ d h
      rw [heq]
      simp only [ur_pairs, List.filterMap_cons, h2, if_false]

/-- C9: in both scripts, when several non-skipped rows share a domain key
(the domain cell lower-cased and trimmed), the loaded ranking dict has
pairwise-distinct keys, its key order is the first-occurrence order of the
row keys, and the value stored under each key is the one of the *last* row
with that key — so the rank lookup can never return an earlier duplicate
row's rank. -/
theorem duplicate_domains_last_wins (rows : List (List PyStr))
    (d : List (PyStr × GIInfo)) (d' : List (PyStr × Int))
    (hgi : load_rankings_gi rows = .ok d) (hur : load_rankings_ur rows = .ok d') :
    (d.map Prod.fst).Nodup
    ∧ d.map Prod.fst = first_occ ((gi_pairs rows).map Prod.fst)
    ∧ (∀ k, py_dict_find d k = last_binding (gi_pairs rows) k)
    ∧ (d'.map Prod.fst).Nodup
    ∧ d'.map Prod.fst = first_occ ((ur_pairs rows).map Prod.fst)
    ∧ (∀ k, py_dict_find d' k = last_binding (ur_pairs rows) k) := by
  have hd := load_gi_go_ok rows [] d hgi
  have hd' := load_ur_go_ok rows [] d' hur
  subst hd
  subst hd'
  refine ⟨nodup_dict_fold _ [] List.nodup_nil, ?_, ?_,
    nodup_dict_fold _ [] List.nodup_nil, ?_, ?_⟩
  · rw [keys_dict_fold]
    rfl
  · intro k
    rw [find_dict_fold]
    cases last_binding (gi_pairs rows) k with
    | some w => rfl
    | none => rfl
  · rw [keys_dict_fold]
    rfl
  · intro k
    rw [find_dict_fold]
    cases last_binding (ur_pairs rows) k with
    | some w => rfl
    | none => rfl

/-- C9 witness: three rows where the first and third share the key
`dup.com`; the loaded dicts keep one `dup.com` entry, in first position,
with the third row's rank (and author). -/
theorem duplicate_domains_last_wins_witness :
    ((List.map Prod.fst
        [(("dup.com".data : PyStr), ((3 : Int), "C".data)),
         ("other.com".data, ((2 : Int), "B".data))]).Nodup
     ∧ List.map Prod.fst
         [(("dup.com".data : PyStr), ((3 : Int), "C".data)),
          ("other.com".data, ((2 : Int), "B".data))]
       = first_occ ((gi_pairs
           [["1".data, "Dup.com".data, [], [], [], "A".data],
            ["2".data, "other.com".data, [], [], [], "B".data],
            ["3".data, "dup.com ".data, [], [], [], "C".data]]).map Prod.fst)
     ∧ (∀ k, py_dict_find
           [(("dup.com".data : PyStr), ((3 : Int), "C".data)),
            ("other.com".data, ((2 : Int), "B".data))] k
         = last_binding (gi_pairs
             [["1".data, "Dup.com".data, [], [], [], "A".data],
              ["2".data, "other.com".data, [], [], [], "B".data],
              ["3".data, "dup.com ".data, [], [], [], "C".data]]) k)
     ∧ (List.map Prod.fst
         [(("dup.com".data : PyStr), (3 : Int)), ("other.com".data, (2 : Int))]).Nodup
     ∧ List.map Prod.fst
         [(("dup.com".data : PyStr), (3 : Int)), ("other.com".data, (2 : Int))]
       = first_occ ((ur_pairs
           [["1".data, "Dup.com".data, [], [], [], "A".data],
            ["2".data, "other.com".data, [], [], [], "B".data],
            ["3".data, "dup.com ".data, [], [], [], "C".data]]).map Prod.fst)
     ∧ (∀ k, py_dict_find
           [(("dup.com".data : PyStr), (3 : Int)), ("other.com".data, (2 : Int))] k
         = last_binding (ur_pairs
             [["1".data, "Dup.com".data, [], [], [], "A".data],
              ["2".data, "other.com".data, [], [], [], "B".data],
              ["3".data, "dup.com ".data, [], [], [], "C".data]]) k)) :=
  duplicate_domains_last_wins
    [["1".data, "Dup.com".data, [], [], [], "A".data],
     ["2".data, "other.com".data, [], [], [], "B".data],
     ["3".data, "dup.com ".data, [], [], [], "C".data]]
    [(("dup.com".data : PyStr), ((3 : Int), "C".data)),
     ("other.com".data, ((2 : Int), "B".data))]
    [(("dup.com".data : PyStr), (3 : Int)), ("other.com".data, (2 : Int))]
    rfl rfl
